import Mathlib

/-!
Shallow embedding of the ArboxBotProject scheduling bot.

Conventions used throughout:

* A calendar date is an `Int`: the number of days since a fixed epoch that
  falls on a Monday.  Thus `d % 7` is Python's `date.weekday()`
  (Monday = 0 … Sunday = 6), `d + 1` is "the next day", and subtraction of
  dates is subtraction of the integers.  `date.isoformat()` is injective, so
  comparing queue records by their ISO strings is the same as comparing the
  dates themselves.
* Times of day stay as the `"HH:MM"` strings the code passes around.
* Python string primitives (`str.lower`, `str.strip`, slicing, `int(...)` on
  digit strings) are modelled on `String.data` character lists so that every
  definition evaluates by kernel reduction.
* Fallible code (dict lookup that may raise `KeyError`) returns `Option`.
-/

namespace ArboxBot

/-- Python `int(s)` on a string of decimal digits (used on regex groups and
on `"HH"`/`"MM"` slices, which are always digit strings in the code). -/
def strToNat (ds : List Char) : Nat :=
  ds.foldl (fun a c => a * 10 + (c.toNat - 48)) 0

/-- Python `str.lower()` (ASCII case folding; identity on Hebrew letters,
exactly like `Char.toLower`). -/
def py_lower (s : String) : String :=
  ⟨s.data.map Char.toLower⟩

/-- Python `str.strip()`: remove leading and trailing whitespace. -/
def py_strip (s : String) : String :=
  ⟨((s.data.dropWhile Char.isWhitespace).reverse.dropWhile Char.isWhitespace).reverse⟩

/-- A `(date, time)` record: the shape of the dicts produced by
`get_registered_classes` (`{"date": date, "time": str}`) and of the queue
records (`{"date": iso_string, "time": str}`, with the ISO string standing
for its date). -/
structure Entry where
  date : Int
  time : String
  deriving DecidableEq, Repr

namespace ArboxActions

/-- The `_DAY_NAME_TO_WEEKDAY` dict of `arbox_actions.py` (English names only,
Monday = 0); `none` models the `KeyError` on any other key. -/
def _DAY_NAME_TO_WEEKDAY (s : String) : Option Int :=
  match s with
  | "monday" => some 0
  | "tuesday" => some 1
  | "wednesday" => some 2
  | "thursday" => some 3
  | "friday" => some 4
  | "saturday" => some 5
  | "sunday" => some 6
  | _ => none

/-- `next_weekday(day_name, reference)` from `arbox_actions.py`:
`delta = (target_wd - reference.weekday()) % 7; return reference + delta`. -/
def next_weekday (day_name : String) (reference : Int) : Option Int :=
  match _DAY_NAME_TO_WEEKDAY (py_lower day_name) with
  | some target_wd => some (reference + (target_wd - reference % 7) % 7)
  | none => none

/-- `_week_start` (local helper of `_navigate_to_week_of`):
`d - timedelta(days=(d.weekday() + 1) % 7)` — the Sunday starting `d`'s
rendered week. -/
def _week_start (d : Int) : Int :=
  d - (d % 7 + 1) % 7

/-- The `weeks` count computed inside `_navigate_to_week_of`:
`(_week_start(target) - _week_start(today)).days // 7`
(Python `//` is floor division, `Int.fdiv`). -/
def weeks_delta (target today : Int) : Int :=
  Int.fdiv (_week_start target - _week_start today) 7

/-- `_navigate_to_week_of`, as a transition on the rendered view.  The view
state is the start-of-week date of the currently displayed week; each click
of the next-week (resp. previous-week) arrow moves the displayed week one
week forward (resp. back).  The code clicks next `weeks` times via
`range(weeks)` and previous `-weeks` times via `range(-weeks)`; `range` of a
non-positive number is empty, which is `Int.toNat` of the count. -/
def _navigate_to_week_of (view target today : Int) : Int :=
  view + 7 * ((weeks_delta target today).toNat : Int)
    - 7 * (((-(weeks_delta target today)).toNat : Int))

/-- Splits a character list into its maximal leading run of decimal digits
and the remainder (the greedy `\d+` step of the regex engine). -/
def splitDigits : List Char → List Char × List Char
  | [] => ([], [])
  | c :: cs =>
    if c.isDigit then
      let p := splitDigits cs
      (c :: p.1, p.2)
    else ([], c :: cs)

/-- One anchored attempt of `re.search(r"(\d+)/(\d+)", ...)` at the head of
the list: a non-empty digit run, a literal slash, a non-empty digit run.
(At a fixed start the first group must be the whole digit run, because every
shorter choice is followed by a digit, not by the slash.) -/
def matchFractionAt (s : List Char) : Option (Nat × Nat) :=
  match splitDigits s with
  | ([], _) => none
  | (d1, '/' :: rest) =>
    match splitDigits rest with
    | ([], _) => none
    | (d2, _) => some (strToNat d1, strToNat d2)
  | (_, _) => none

/-- `re.search(r"(\d+)/(\d+)", s)`: the leftmost position where
`matchFractionAt` succeeds, with its two integer groups. -/
def searchFraction : List Char → Option (Nat × Nat)
  | [] => none
  | c :: cs =>
    match matchFractionAt (c :: cs) with
    | some p => some p
    | none => searchFraction cs

/-- `_is_full(slot_text)` from `arbox_actions.py`: search for the first
`N/M` pattern; full when `int(group 1) >= int(group 2)`; `False` when the
pattern is absent. -/
def _is_full (slot_text : String) : Bool :=
  match searchFraction slot_text.data with
  | some (taken, total) => decide (taken ≥ total)
  | none => false

/-- Modelled from the spec: the claim reads the classifier as "full iff the
string CONTAINS an N/M pattern with taken ≥ total", i.e. some (not
necessarily the first) fraction occurrence in the text is full.  Declared
for comparison with `_is_full`, which tests only the leftmost occurrence. -/
def specContainsFullFraction : List Char → Bool
  | [] => false
  | c :: cs =>
    (match matchFractionAt (c :: cs) with
     | some (taken, total) => decide (taken ≥ total)
     | none => false) || specContainsFullFraction cs

/-- `_mins(t)` (local helper in `get_registered_classes`):
`int(t[:2]) * 60 + int(t[3:])`. -/
def _mins (t : String) : Int :=
  strToNat (t.data.take 2) * 60 + strToNat (t.data.drop 3)

/-- The per-date time sets built by the dedup postlude of
`get_registered_classes`: `times_per_day[d]` collects the time of every
detected entry whose date is `d`. -/
def times_on_date (registered : List Entry) (d : Int) : List String :=
  (registered.filter fun e => e.date == d).map Entry.time

/-- The dedup postlude of `get_registered_classes` (the final list
comprehension): keep a detected entry unless some detected time on the same
date is exactly 60 minutes earlier. -/
def dedup_registered (registered : List Entry) : List Entry :=
  registered.filter fun item =>
    ! (times_on_date registered item.date).any fun earlier =>
        _mins earlier == _mins item.time - 60

/-- The UI interactions `register_class` and `cancel_class` issue against the
rendered page (slot click, button activations, the Escape key). -/
inductive UIAction
  | slotClick
  | registerClick
  | cancelClick
  | confirmClick
  | escapePress
  deriving DecidableEq, Repr

/-- Abstraction of what the rendered Arbox page does during one
`register_class` / `cancel_class` run: whether `_find_class_slot` resolves a
slot, the slot's label text, which buttons become visible within their wait
bounds after the slot is clicked, whether the slot click opens the detail
modal, and whether activating a button closes it.  Pressing Escape always
closes the modal (that is what the code uses it for). -/
structure UIEnv where
  /-- `_find_class_slot` returns a slot (otherwise it raises `ValueError`). -/
  slotFound : Bool
  /-- The resolved slot's `inner_text()`. -/
  slotText : String
  /-- The רישום (register) button becomes visible within its 3 s bound. -/
  registerVisible : Bool
  /-- The ביטול הרשמה (cancel registration) button becomes visible within
  its wait bound. -/
  cancelVisible : Bool
  /-- The כן, לבטל בבקשה (confirm cancellation) button becomes visible
  within its 5 s bound. -/
  confirmVisible : Bool
  /-- Clicking the slot opens the detail modal. -/
  modalOpensOnClick : Bool
  /-- Activating a register/cancel/confirm button closes the modal. -/
  activateCloses : Bool
  deriving DecidableEq, Repr

/-- Terminal outcomes of `register_class`: the returned message is one of
"Registered…", "Already registered…", "Class is full…", the `ValueError`
text from `_find_class_slot` (slot not found), or the catch-all
"Error while registering…" (which also covers the timeout with no visible
button). -/
inductive RegisterOutcome
  | Registered
  | AlreadyRegistered
  | Full
  | NotFoundErr
  | ErrorCaught
  deriving DecidableEq, Repr

/-- Terminal outcomes of `cancel_class`. -/
inductive CancelOutcome
  | Cancelled
  | NotRegistered
  | NotFoundErr
  | ErrorCaught
  deriving DecidableEq, Repr

/-- Result of one `register_class` run: the outcome, the UI actions issued
in order, and whether the detail modal is still open when the function
returns. -/
structure RegResult where
  outcome : RegisterOutcome
  actions : List UIAction
  modalOpen : Bool
  deriving DecidableEq, Repr

/-- Result of one `cancel_class` run. -/
structure CancelResult where
  outcome : CancelOutcome
  actions : List UIAction
  modalOpen : Bool
  deriving DecidableEq, Repr

/-- `register_class` from `arbox_actions.py` over a `UIEnv`:
resolve the slot (`ValueError` → caught, no interaction); check `_is_full`
on the slot text and return the full message before any click; otherwise
click the slot, wait for the register button (visible → click it →
`Registered`); if instead the cancel button is visible, press Escape and
return `AlreadyRegistered`; otherwise re-raise, caught by the outer
`except Exception` with no further interaction. -/
def register_class_run (env : UIEnv) : RegResult :=
  if !env.slotFound then
    ⟨.NotFoundErr, [], false⟩
  else if _is_full env.slotText then
    ⟨.Full, [], false⟩
  else if env.registerVisible then
    ⟨.Registered, [.slotClick, .registerClick],
      env.modalOpensOnClick && !env.activateCloses⟩
  else if env.cancelVisible then
    ⟨.AlreadyRegistered, [.slotClick, .escapePress], false⟩
  else
    ⟨.ErrorCaught, [.slotClick], env.modalOpensOnClick⟩

/-- `cancel_class` from `arbox_actions.py` over a `UIEnv`:
resolve the slot and click it; if the cancel button never becomes visible,
press Escape and return `NotRegistered`; otherwise click it and wait for
the confirm button: visible → click it → `Cancelled`; otherwise the timeout
escapes to the outer `except Exception` with no further interaction. -/
def cancel_class_run (env : UIEnv) : CancelResult :=
  if !env.slotFound then
    ⟨.NotFoundErr, [], false⟩
  else if !env.cancelVisible then
    ⟨.NotRegistered, [.slotClick, .escapePress], false⟩
  else if env.confirmVisible then
    ⟨.Cancelled, [.slotClick, .cancelClick, .confirmClick],
      env.modalOpensOnClick && !env.activateCloses⟩
  else
    ⟨.ErrorCaught, [.slotClick, .cancelClick], env.modalOpensOnClick⟩

end ArboxActions

namespace QueueManager

/-- The persisted queue file (`registration_queue.json`): absent, present
but unreadable or syntactically invalid JSON, or a parsed list of records. -/
inductive QueueFile
  | missing
  | invalid
  | valid (entries : List Entry)
  deriving DecidableEq, Repr

/-- `_load()` from `queue_manager.py`: `[]` when the file does not exist;
`[]` on `json.JSONDecodeError`/`OSError`; otherwise the parsed list. -/
def _load : QueueFile → List Entry
  | .missing => []
  | .invalid => []
  | .valid entries => entries

/-- `_save(queue)` from `queue_manager.py`: rewrite the file wholesale with
the given list. -/
def _save (queue : List Entry) : QueueFile :=
  .valid queue

/-- `add_to_queue(target_date, time_str)`: load, return `False` leaving the
file untouched when the entry is already present, else append, save and
return `True`. -/
def add_to_queue (file : QueueFile) (entry : Entry) : Bool × QueueFile :=
  if entry ∈ _load file then (false, file)
  else (true, _save (_load file ++ [entry]))

/-- `get_queue()`: the loaded records (ISO date strings parsed back to
dates, which the `Entry.date : Int` encoding already reflects). -/
def get_queue (file : QueueFile) : List Entry :=
  _load file

/-- `remove_from_queue(target_date, time_str)`: load, return `False` leaving
the file untouched when the entry is absent, else `list.remove` (first
occurrence), save and return `True`. -/
def remove_from_queue (file : QueueFile) (entry : Entry) : Bool × QueueFile :=
  if entry ∈ _load file then (true, _save ((_load file).erase entry))
  else (false, file)

/-- `clear_queue()`: `_save([])`. -/
def clear_queue (_file : QueueFile) : QueueFile :=
  _save []

/-- One call against the queue API (used to talk about every state the
persisted queue can reach). -/
inductive QueueOp
  | add (e : Entry)
  | remove (e : Entry)
  | clear
  deriving DecidableEq, Repr

/-- The file state after one queue operation. -/
def applyOp (file : QueueFile) : QueueOp → QueueFile
  | .add e => (add_to_queue file e).2
  | .remove e => (remove_from_queue file e).2
  | .clear => clear_queue file

/-- The file state after a sequence of queue operations. -/
def runOps (file : QueueFile) (ops : List QueueOp) : QueueFile :=
  ops.foldl applyOp file

end QueueManager

namespace TelegramBot

/-- The `_DAY_NAME_TO_WEEKDAY` dict of `telegram_bot.py` (English and Hebrew
names, Monday = 0). -/
def _DAY_NAME_TO_WEEKDAY (s : String) : Option Int :=
  match s with
  | "monday" => some 0
  | "tuesday" => some 1
  | "wednesday" => some 2
  | "thursday" => some 3
  | "friday" => some 4
  | "saturday" => some 5
  | "sunday" => some 6
  | "שני" => some 0
  | "שלישי" => some 1
  | "רביעי" => some 2
  | "חמישי" => some 3
  | "שישי" => some 4
  | "שבת" => some 5
  | "ראשון" => some 6
  | _ => none

/-- `_parse_day(token)` from `telegram_bot.py`, with "now" passed explicitly:
`t = token.strip().lower()`; `"today"`/`"tomorrow"` (and their Hebrew forms)
resolve relative to today; a weekday name resolves to
`delta = (wd - today.weekday()) % 7; if delta == 0: delta = 7`; anything
else is `None`. -/
def _parse_day (token : String) (today : Int) : Option Int :=
  if py_lower (py_strip token) = "today" ∨ py_lower (py_strip token) = "היום" then
    some today
  else if py_lower (py_strip token) = "tomorrow" ∨ py_lower (py_strip token) = "מחר" then
    some (today + 1)
  else
    match _DAY_NAME_TO_WEEKDAY (py_lower (py_strip token)) with
    | some wd =>
      some (today + (if (wd - today % 7) % 7 = 0 then 7 else (wd - today % 7) % 7))
    | none => none

/-- One observable event of the weekly batch run `_scheduled_batch_register`:
an intent attempted through `register_class` (with its terminal outcome — in
the code, one accumulated result line), or the `clear_queue()` call. -/
inductive BatchEvent
  | attempted (it : Entry) (outcome : ArboxActions.RegisterOutcome)
  | clearedQueue
  deriving DecidableEq, Repr

/-- The intent of an `attempted` event (used to read the result lines back
out of a batch trace). -/
def attemptIntent : BatchEvent → Option Entry
  | .attempted it _ => some it
  | .clearedQueue => none

/-- `_scheduled_batch_register` from `telegram_bot.py`, as the trace of
events it produces once the authenticated page is acquired: drain the queue
in order — for each queued item one `register_class` call and one result
line, `register_class` being total (its catch-all `except` turns every
failure into a returned message); after the loop, `clear_queue()` (guarded
by `if queued:`); then `batch_register_next_week`, one `register_class`
call per weekly-template item.  `envOf` gives the page behaviour each
intent meets. -/
def _scheduled_batch_register (envOf : Entry → ArboxActions.UIEnv)
    (queued weekly : List Entry) : List BatchEvent :=
  (queued.map fun it => .attempted it (ArboxActions.register_class_run (envOf it)).outcome)
    ++ (if queued.isEmpty then [] else [.clearedQueue])
    ++ (weekly.map fun it => .attempted it (ArboxActions.register_class_run (envOf it)).outcome)

end TelegramBot

/-! Helper lemmas (shared by several claim proofs). -/

/-- Every weekday value stored in the `arbox_actions` day-name dict lies in
0‥6. -/
theorem arbox_day_name_bounds (s : String) (wd : Int)
    (h : ArboxActions._DAY_NAME_TO_WEEKDAY s = some wd) : 0 ≤ wd ∧ wd < 7 := by
  unfold ArboxActions._DAY_NAME_TO_WEEKDAY at h
  split at h <;> simp_all <;> omega

/-- A token that resolves through the `telegram_bot` day-name dict is none of
the four relative-day keywords handled before the dict lookup. -/
theorem tb_day_name_not_special (s : String) (wd : Int)
    (h : TelegramBot._DAY_NAME_TO_WEEKDAY s = some wd) :
    ¬(s = "today" ∨ s = "היום") ∧ ¬(s = "tomorrow" ∨ s = "מחר") := by
  constructor <;> rintro (rfl | rfl) <;> exact Option.noConfusion h

/-- The two click loops of `_navigate_to_week_of` move the view by
`7 * weeks` days in one formula, whatever the sign of `weeks`. -/
theorem nav_moves_by_weeks (view target today : Int) :
    ArboxActions._navigate_to_week_of view target today =
      view + 7 * ArboxActions.weeks_delta target today := by
  unfold ArboxActions._navigate_to_week_of
  omega

/-- Reading back a freshly saved queue file yields what was saved. -/
theorem get_queue_save (q : List Entry) :
    QueueManager.get_queue (QueueManager._save q) = q := rfl

/-- `get_queue` is `_load`. -/
theorem get_queue_load (f : QueueManager.QueueFile) :
    QueueManager.get_queue f = QueueManager._load f := rfl

/-- Each single queue operation preserves duplicate-freedom of the persisted
list. -/
theorem queue_nodup_preserved (f : QueueManager.QueueFile)
    (h : (QueueManager.get_queue f).Nodup) (op : QueueManager.QueueOp) :
    (QueueManager.get_queue (QueueManager.applyOp f op)).Nodup := by
  rw [get_queue_load] at h
  cases op with
  | add e =>
    by_cases he : e ∈ QueueManager._load f
    · have heq : QueueManager.applyOp f (.add e) = f := by
        simp [QueueManager.applyOp, QueueManager.add_to_queue, he]
      rw [heq, get_queue_load]
      exact h
    · have heq : QueueManager.applyOp f (.add e) =
          QueueManager._save (QueueManager._load f ++ [e]) := by
        simp [QueueManager.applyOp, QueueManager.add_to_queue, he]
      rw [heq, get_queue_save]
      simp [List.nodup_append, h, he]
  | remove e =>
    by_cases he : e ∈ QueueManager._load f
    · have heq : QueueManager.applyOp f (.remove e) =
          QueueManager._save ((QueueManager._load f).erase e) := by
        simp [QueueManager.applyOp, QueueManager.remove_from_queue, he]
      rw [heq, get_queue_save]
      exact h.erase e
    · have heq : QueueManager.applyOp f (.remove e) = f := by
        simp [QueueManager.applyOp, QueueManager.remove_from_queue, he]
      rw [heq, get_queue_load]
      exact h
  | clear =>
    have heq : QueueManager.applyOp f .clear = QueueManager._save [] := rfl
    rw [heq, get_queue_save]
    exact List.nodup_nil

/-- Any sequence of queue operations preserves duplicate-freedom of the
persisted list. -/
theorem queue_runOps_nodup (ops : List QueueManager.QueueOp) :
    ∀ f : QueueManager.QueueFile, (QueueManager.get_queue f).Nodup →
      (QueueManager.get_queue (QueueManager.runOps f ops)).Nodup := by
  induction ops with
  | nil => intro f h; exact h
  | cons op rest ih =>
    intro f h
    exact ih _ (queue_nodup_preserved f h op)

/-- Reading the intents back out of a block of `attempted` events recovers
the attempted list. -/
theorem filterMap_attempt_map (l : List Entry)
    (g : Entry → ArboxActions.RegisterOutcome) :
    (l.map fun it => TelegramBot.BatchEvent.attempted it (g it)).filterMap
        TelegramBot.attemptIntent = l := by
  induction l with
  | nil => rfl
  | cons a as ih => simp_all [TelegramBot.attemptIntent]

/-! Claim theorems. -/

/-- C1, counterexample: on the detected set 17:00, 18:00, 19:00 of one date —
three genuinely distinct sessions one hour apart — the dedup postlude of
`get_registered_classes` does not retain all three entries, contrary to the
claim. -/
theorem c1_three_hourly_sessions_not_retained :
    ArboxActions.dedup_registered
        ([⟨0, "17:00"⟩, ⟨0, "18:00"⟩, ⟨0, "19:00"⟩] : List Entry) ≠
      ([⟨0, "17:00"⟩, ⟨0, "18:00"⟩, ⟨0, "19:00"⟩] : List Entry) := by decide

/-- C1, amended: the dedup removes every detected entry that is exactly 60
minutes later than another detected entry on the same date, whether or not
it is a rendered-duplicate artifact: the single-session set 08:00, 09:00
collapses to 08:00 as claimed, but the three-distinct-sessions set 17:00,
18:00, 19:00 also collapses — to 17:00 alone, dropping the two genuinely
distinct later sessions. -/
theorem c1_amended_dedup_collapses_hour_chains :
    ArboxActions.dedup_registered ([⟨0, "08:00"⟩, ⟨0, "09:00"⟩] : List Entry) =
        ([⟨0, "08:00"⟩] : List Entry) ∧
      ArboxActions.dedup_registered
          ([⟨0, "17:00"⟩, ⟨0, "18:00"⟩, ⟨0, "19:00"⟩] : List Entry) =
        ([⟨0, "17:00"⟩] : List Entry) := by decide

/-- C2, counterexample: with today a Monday (day 0) and the target in the
following week (day 7), a view that starts in-band at the current week's
Sunday (day -1) is moved one week forward by the first call and one more
week forward by the second — calling `_navigate_to_week_of` twice does not
leave the view where one call leaves it. -/
theorem c2_double_navigation_moves_again :
    ArboxActions._navigate_to_week_of
        (ArboxActions._navigate_to_week_of (-1) 7 0) 7 0 ≠
      ArboxActions._navigate_to_week_of (-1) 7 0 := by decide

/-- C2, amended: the step count of `_navigate_to_week_of` is absolute
(derived only from the reference week and the target week, never from the
view's position), but the steps themselves are relative clicks, so a second
call advances the view by the same offset again; repeated calls agree with
a single call exactly when the offset is zero, i.e. when the target lies in
the reference week. -/
theorem c2_amended_navigation_offset_absolute :
    ∀ view target today : Int,
      ArboxActions._navigate_to_week_of
          (ArboxActions._navigate_to_week_of view target today) target today =
        ArboxActions._navigate_to_week_of view target today +
          7 * ArboxActions.weeks_delta target today ∧
      (ArboxActions._navigate_to_week_of
          (ArboxActions._navigate_to_week_of view target today) target today =
        ArboxActions._navigate_to_week_of view target today ↔
          ArboxActions.weeks_delta target today = 0) ∧
      (ArboxActions.weeks_delta target today = 0 ↔
        ArboxActions._week_start target = ArboxActions._week_start today) := by
  intro view target today
  have hnav := nav_moves_by_weeks view target today
  have hnav2 := nav_moves_by_weeks
    (ArboxActions._navigate_to_week_of view target today) target today
  have hdelta : ArboxActions.weeks_delta target today =
      (ArboxActions._week_start target - ArboxActions._week_start today) / 7 := by
    unfold ArboxActions.weeks_delta
    exact Int.fdiv_eq_ediv _ (by norm_num)
  unfold ArboxActions._week_start at hdelta ⊢
  refine ⟨by omega, by omega, by omega⟩

/-- C3, counterexample: with reference day 0 (a Monday), `next_weekday`
for "monday" returns day 0 itself; calling it again with that returned date
as reference returns the same day 0 again — not a date 7 days later, as the
claim requires. -/
theorem c3_same_weekday_reference_not_advanced :
    ArboxActions.next_weekday "monday" 0 = some 0 ∧
      ArboxActions.next_weekday "monday" 0 ≠ some 7 := by decide

/-- C3, amended: for every day name in the vocabulary and every reference,
`next_weekday` returns a date on or after the reference whose weekday
matches the name; calling it again with the returned date as reference
returns the same date (the result is a fixed point, not 7 days later). -/
theorem c3_amended_next_weekday_fixed_point :
    ∀ (name : String) (ref wd : Int),
      ArboxActions._DAY_NAME_TO_WEEKDAY (py_lower name) = some wd →
      ∃ r, ArboxActions.next_weekday name ref = some r ∧
        ref ≤ r ∧ r % 7 = wd ∧ ArboxActions.next_weekday name r = some r := by
  intro name ref wd h
  obtain ⟨h0, h7⟩ := arbox_day_name_bounds _ _ h
  refine ⟨ref + (wd - ref % 7) % 7, ?_, ?_, ?_, ?_⟩
  · simp [ArboxActions.next_weekday, h]
  · omega
  · omega
  · simp only [ArboxActions.next_weekday, h]
    congr 1
    omega

/-- C3, witness: instantiating the amended theorem at "monday" with
reference day 3 (a Thursday). -/
theorem c3_amended_next_weekday_fixed_point_witness :
    ∃ r, ArboxActions.next_weekday "monday" 3 = some r ∧ (3 : Int) ≤ r ∧
      r % 7 = 0 ∧ ArboxActions.next_weekday "monday" r = some r :=
  c3_amended_next_weekday_fixed_point "monday" 3 0 (by decide)

/-- C4: evaluation of the code at the failing inputs.  When the slot
resolves and is not full, the modal opens on the slot click, but the
expected affordance never becomes visible within its bound (register: no
register and no cancel button within 3 s; cancel: cancel button visible and
clicked but no confirm button within 5 s), both functions return through
the catch-all `except Exception` branch with the detail modal still open —
no Escape is pressed on that path, contradicting the claimed invariant that
every terminal branch closes the detail view. -/
theorem c4_timeout_branches_leave_modal_open :
    ArboxActions.register_class_run
        ⟨true, "4/20", false, false, false, true, true⟩ =
      ⟨.ErrorCaught, [.slotClick], true⟩ ∧
      ArboxActions.cancel_class_run
          ⟨true, "4/20", false, true, false, true, true⟩ =
        ⟨.ErrorCaught, [.slotClick, .cancelClick], true⟩ := by decide

/-- C5: whenever the slot resolves and its text classifies as full,
`register_class` returns the full outcome having issued no UI action at
all — the slot is never clicked, so the detail view is never opened and no
register or confirm step is attempted. -/
theorem c5_full_slot_returns_without_clicking :
    ∀ env : ArboxActions.UIEnv, env.slotFound = true →
      ArboxActions._is_full env.slotText = true →
      ArboxActions.register_class_run env = ⟨.Full, [], false⟩ := by
  intro env hfound hfull
  unfold ArboxActions.register_class_run
  rw [hfound, hfull]
  simp

/-- C5, witness: a found slot reporting 20/20 short-circuits to the full
outcome even when every button would have been available. -/
theorem c5_full_slot_returns_without_clicking_witness :
    ArboxActions.register_class_run ⟨true, "20/20", true, true, true, true, false⟩ =
      ⟨.Full, [], false⟩ :=
  c5_full_slot_returns_without_clicking
    ⟨true, "20/20", true, true, true, true, false⟩ rfl (by decide)

/-- C6: in every weekly batch run, reading the intents back out of the event
trace yields the queued intents in queue order followed by the weekly
template intents — each queued intent is attempted exactly once and yields
exactly one result line whatever its outcome, and no outcome aborts the
rest; wherever a `clear_queue` event occurs in the trace, every queued
intent's attempt occurs strictly before it; and a non-empty queue does get
cleared. -/
theorem c6_batch_drains_queue_in_order_then_clears :
    ∀ (envOf : Entry → ArboxActions.UIEnv) (queued weekly : List Entry),
      (TelegramBot._scheduled_batch_register envOf queued weekly).filterMap
          TelegramBot.attemptIntent = queued ++ weekly ∧
      (∀ n : Nat,
        (TelegramBot._scheduled_batch_register envOf queued weekly)[n]? =
            some TelegramBot.BatchEvent.clearedQueue →
          ∀ it ∈ queued, ∃ m, m < n ∧
            (TelegramBot._scheduled_batch_register envOf queued weekly)[m]? =
              some (TelegramBot.BatchEvent.attempted it
                (ArboxActions.register_class_run (envOf it)).outcome)) ∧
      (queued ≠ [] →
        TelegramBot.BatchEvent.clearedQueue ∈
          TelegramBot._scheduled_batch_register envOf queued weekly) := by
  intro envOf queued weekly
  refine ⟨?_, ?_, ?_⟩
  · unfold TelegramBot._scheduled_batch_register
    rw [List.filterMap_append, List.filterMap_append,
      filterMap_attempt_map, filterMap_attempt_map]
    split <;> simp [TelegramBot.attemptIntent]
  · intro n hn it hit
    have hnot : ¬ n < queued.length := by
      intro hlt
      unfold TelegramBot._scheduled_batch_register at hn
      rw [List.append_assoc, List.getElem?_append_left (by simpa using hlt),
        List.getElem?_map, List.getElem?_eq_getElem hlt] at hn
      simp at hn
    obtain ⟨j, hj, hje⟩ := List.mem_iff_getElem.mp hit
    refine ⟨j, by omega, ?_⟩
    unfold TelegramBot._scheduled_batch_register
    rw [List.append_assoc, List.getElem?_append_left (by simpa using hj),
      List.getElem?_map, List.getElem?_eq_getElem hj]
    simp [hje]
  · intro hq
    unfold TelegramBot._scheduled_batch_register
    cases queued with
    | nil => exact absurd rfl hq
    | cons a as => simp

/-- C6, witness: one queued intent and one weekly intent against a page on
which every interaction succeeds; the queued intent is attempted at index 0,
the clear event sits at index 1, and both intents appear in the read-back. -/
theorem c6_batch_drains_queue_in_order_then_clears_witness :
    ((TelegramBot._scheduled_batch_register
        (fun _ => ⟨true, "20/20", true, true, true, true, true⟩)
        [⟨0, "07:00"⟩] [⟨1, "08:00"⟩]).filterMap TelegramBot.attemptIntent =
      ([⟨0, "07:00"⟩, ⟨1, "08:00"⟩] : List Entry)) ∧
      (∃ m, m < 1 ∧
        (TelegramBot._scheduled_batch_register
          (fun _ => ⟨true, "20/20", true, true, true, true, true⟩)
          [⟨0, "07:00"⟩] [⟨1, "08:00"⟩])[m]? =
            some (TelegramBot.BatchEvent.attempted ⟨0, "07:00"⟩
              (ArboxActions.register_class_run
                ⟨true, "20/20", true, true, true, true, true⟩).outcome)) ∧
      TelegramBot.BatchEvent.clearedQueue ∈
        TelegramBot._scheduled_batch_register
          (fun _ => ⟨true, "20/20", true, true, true, true, true⟩)
          [⟨0, "07:00"⟩] [⟨1, "08:00"⟩] :=
  ⟨(c6_batch_drains_queue_in_order_then_clears
      (fun _ => ⟨true, "20/20", true, true, true, true, true⟩)
      [⟨0, "07:00"⟩] [⟨1, "08:00"⟩]).1,
   (c6_batch_drains_queue_in_order_then_clears
      (fun _ => ⟨true, "20/20", true, true, true, true, true⟩)
      [⟨0, "07:00"⟩] [⟨1, "08:00"⟩]).2.1 1 (by decide) ⟨0, "07:00"⟩ (by decide),
   (c6_batch_drains_queue_in_order_then_clears
      (fun _ => ⟨true, "20/20", true, true, true, true, true⟩)
      [⟨0, "07:00"⟩] [⟨1, "08:00"⟩]).2.2 (by decide)⟩

/-- C7: on every persisted queue state, adding the same pair twice leaves
the state of the first add (the second call reports already-present); when
the pair occurred at most once before, exactly one copy is present after;
removing an absent pair reports not-present and leaves the file untouched;
after `clear_queue` the queue is empty; and every state reachable from the
empty queue is duplicate-free, so no intent ever appears twice. -/
theorem c7_queue_idempotent_add_remove_clear :
    ∀ (f : QueueManager.QueueFile) (e : Entry),
      ((QueueManager.add_to_queue (QueueManager.add_to_queue f e).2 e).1 = false ∧
        (QueueManager.add_to_queue (QueueManager.add_to_queue f e).2 e).2 =
          (QueueManager.add_to_queue f e).2) ∧
      ((QueueManager.get_queue f).count e ≤ 1 →
        (QueueManager.get_queue (QueueManager.add_to_queue f e).2).count e = 1) ∧
      (e ∉ QueueManager.get_queue f →
        QueueManager.remove_from_queue f e = (false, f)) ∧
      QueueManager.get_queue (QueueManager.clear_queue f) = [] ∧
      (∀ ops : List QueueManager.QueueOp,
        (QueueManager.get_queue
          (QueueManager.runOps (QueueManager.QueueFile.valid []) ops)).Nodup) := by
  intro f e
  refine ⟨?_, ?_, ?_, rfl, ?_⟩
  · by_cases he : e ∈ QueueManager._load f
    · have heq : (QueueManager.add_to_queue f e).2 = f := by
        simp [QueueManager.add_to_queue, he]
      rw [heq]
      constructor <;> simp [QueueManager.add_to_queue, he]
    · have heq : (QueueManager.add_to_queue f e).2 =
          QueueManager._save (QueueManager._load f ++ [e]) := by
        simp [QueueManager.add_to_queue, he]
      have hmem : e ∈ QueueManager._load
          (QueueManager._save (QueueManager._load f ++ [e])) := by
        simp [QueueManager._save, QueueManager._load]
      rw [heq]
      constructor <;> simp [QueueManager.add_to_queue, hmem]
  · intro hcount
    rw [get_queue_load] at hcount
    by_cases he : e ∈ QueueManager._load f
    · have hpos : 0 < (QueueManager._load f).count e := List.count_pos_iff.mpr he
      have heq : (QueueManager.add_to_queue f e).2 = f := by
        simp [QueueManager.add_to_queue, he]
      rw [heq, get_queue_load]
      omega
    · have h0 : (QueueManager._load f).count e = 0 := List.count_eq_zero.mpr he
      have heq : (QueueManager.add_to_queue f e).2 =
          QueueManager._save (QueueManager._load f ++ [e]) := by
        simp [QueueManager.add_to_queue, he]
      rw [heq, get_queue_save]
      simp [List.count_append, h0]
  · intro he
    rw [get_queue_load] at he
    simp [QueueManager.remove_from_queue, he]
  · intro ops
    exact queue_runOps_nodup ops _ (by simp [get_queue_load, QueueManager._load])

/-- C7, witness: the double add, the count, and the remove-absent clauses
instantiated on the empty persisted queue. -/
theorem c7_queue_idempotent_add_remove_clear_witness :
    ((QueueManager.add_to_queue
        (QueueManager.add_to_queue (.valid []) (⟨0, "07:00"⟩ : Entry)).2
        ⟨0, "07:00"⟩).1 = false) ∧
      (QueueManager.get_queue
        (QueueManager.add_to_queue (.valid [])
          (⟨0, "07:00"⟩ : Entry)).2).count ⟨0, "07:00"⟩ = 1 ∧
      QueueManager.remove_from_queue (.valid []) (⟨0, "07:00"⟩ : Entry) =
        (false, .valid []) :=
  ⟨(c7_queue_idempotent_add_remove_clear (.valid []) ⟨0, "07:00"⟩).1.1,
   (c7_queue_idempotent_add_remove_clear (.valid []) ⟨0, "07:00"⟩).2.1 (by decide),
   (c7_queue_idempotent_add_remove_clear (.valid []) ⟨0, "07:00"⟩).2.2.1 (by decide)⟩

/-- C8, counterexample: the text "4/20 5/5" contains an N/M pattern with
taken ≥ total (the 5/5), yet `_is_full` classifies it not-full, because the
code tests only the first match of the regex — the claim's
"contains an N/M pattern with taken ≥ total" reading is refuted. -/
theorem c8_later_full_fraction_ignored :
    ArboxActions._is_full "4/20 5/5" = false ∧
      ArboxActions.specContainsFullFraction ("4/20 5/5").data = true := by decide

/-- C8, amended: `_is_full` is decided by the first (leftmost) N/M pattern
of the string: full iff that pattern has taken ≥ total; text with no such
pattern is never full; and on the claim's examples, 20/20 is full, 4/20 is
not, 20/20(9) is full. -/
theorem c8_amended_first_fraction_decides :
    ArboxActions._is_full "20/20" = true ∧
    ArboxActions._is_full "4/20" = false ∧
    ArboxActions._is_full "20/20(9)" = true ∧
    (∀ s : String, ArboxActions.searchFraction s.data = none →
      ArboxActions._is_full s = false) ∧
    (∀ (s : String) (taken total : Nat),
      ArboxActions.searchFraction s.data = some (taken, total) →
        (ArboxActions._is_full s = true ↔ total ≤ taken)) := by
  refine ⟨by decide, by decide, by decide, ?_, ?_⟩
  · intro s h
    simp [ArboxActions._is_full, h]
  · intro s taken total h
    simp [ArboxActions._is_full, h, ge_iff_le]

/-- C8, witness: the two conditional clauses of the amended theorem
instantiated on pattern-free text and on the fraction 3/2. -/
theorem c8_amended_first_fraction_decides_witness :
    ArboxActions._is_full "no occupancy text" = false ∧
      (ArboxActions._is_full "3/2" = true ↔ 2 ≤ 3) :=
  ⟨c8_amended_first_fraction_decides.2.2.2.1 "no occupancy text" (by decide),
   c8_amended_first_fraction_decides.2.2.2.2 "3/2" 3 2 (by decide)⟩

/-- C9, counterexample: on a corrupt queue file, `remove_from_queue` loads
the empty list, finds the entry absent, and returns not-present WITHOUT
saving — the corrupt file is left in place, not rewritten as the claim
states for every mutation. -/
theorem c9_remove_leaves_corrupt_file_untouched :
    QueueManager.remove_from_queue QueueManager.QueueFile.invalid ⟨0, "07:00"⟩ =
      (false, QueueManager.QueueFile.invalid) := by decide

/-- C9, amended: a missing, unreadable or syntactically invalid queue file
reads as the empty queue without raising; `add_to_queue` and `clear_queue`
then rewrite the file, silently discarding whatever the corrupt file held;
but `remove_from_queue` returns not-present without touching the file, so
the corrupt content survives until an add or a clear. -/
theorem c9_amended_corrupt_file_reads_empty :
    QueueManager.get_queue .missing = [] ∧
    QueueManager.get_queue .invalid = [] ∧
    (∀ e : Entry, QueueManager.add_to_queue .invalid e = (true, .valid [e])) ∧
    (∀ e : Entry, QueueManager.add_to_queue .missing e = (true, .valid [e])) ∧
    QueueManager.clear_queue .invalid = .valid [] ∧
    (∀ e : Entry, QueueManager.remove_from_queue .invalid e = (false, .invalid)) ∧
    (∀ e : Entry, QueueManager.remove_from_queue .missing e = (false, .missing)) := by
  refine ⟨rfl, rfl, ?_, ?_, rfl, ?_, ?_⟩ <;>
    intro e <;>
    simp [QueueManager.add_to_queue, QueueManager.remove_from_queue,
      QueueManager._load, QueueManager._save]

/-- C10: a weekday-name token whose weekday equals today's weekday is
resolved by the chat parser `_parse_day` to the date exactly 7 days ahead
(never today), while `next_weekday` of `arbox_actions` under the same
inputs returns the reference date itself. -/
theorem c10_parse_day_strictly_future_next_weekday_not :
    ∀ (token : String) (today wd : Int),
      (TelegramBot._DAY_NAME_TO_WEEKDAY (py_lower (py_strip token)) = some wd →
        wd = today % 7 → TelegramBot._parse_day token today = some (today + 7)) ∧
      (ArboxActions._DAY_NAME_TO_WEEKDAY (py_lower token) = some wd →
        wd = today % 7 → ArboxActions.next_weekday token today = some today) := by
  intro token today wd
  constructor
  · intro hmap heq
    obtain ⟨h1, h2⟩ := tb_day_name_not_special _ _ hmap
    unfold TelegramBot._parse_day
    rw [if_neg h1, if_neg h2, hmap]
    subst heq
    simp
  · intro hmap heq
    unfold ArboxActions.next_weekday
    rw [hmap]
    subst heq
    simp

/-- C10, witness: "monday" typed on a Monday (day 0) parses to day 7 in the
chat surface while `next_weekday` returns day 0 itself. -/
theorem c10_parse_day_strictly_future_next_weekday_not_witness :
    TelegramBot._parse_day "monday" 0 = some 7 ∧
      ArboxActions.next_weekday "monday" 0 = some 0 :=
  ⟨(c10_parse_day_strictly_future_next_weekday_not "monday" 0 0).1
      (by decide) (by decide),
   (c10_parse_day_strictly_future_next_weekday_not "monday" 0 0).2
      (by decide) (by decide)⟩

end ArboxBot
